import Mathlib

/-!
Shallow embedding of `src/hash.h` (hlibs): a header-only separate-chaining
hash table with an optional arena allocator and heap fallback.

Modelling conventions.

* `size_t` is modelled as `Nat`; where C wraparound matters the code takes
  the value modulo `2 ^ 64` explicitly (LP64 platform model).
* Raw key and value buffers are byte lists (`List Nat`); `memcpy` of a
  caller buffer stores the list, `memset 0` stores `List.replicate n 0`.
* The user-injected hash and key-equality functions (`f_hash_func`,
  `f_hash_key_cmp`) are stored in the C table at `hash_init` and never
  change afterwards; the embedding passes them as explicit parameters
  `hash : List Nat → Nat` and `equals : List Nat → List Nat → Bool`.
* Addresses are `Nat`.  The arena block starts at an arbitrary base
  address chosen at `hash_init`; slot `i` is at `base + i * stride`,
  exactly as `entry_alloc` computes it.  Heap `malloc` results are modelled
  by a counter `heapNext` that starts past the end of the arena block and
  advances by `entry_size` per allocation — this encodes the C platform
  guarantee that a live `malloc` never aliases the live arena block.
  Whether a given `malloc` succeeds is an oracle (`heapOk : Bool`) passed
  to each operation; `heapOk = false` models `malloc` returning `NULL`.
* A bucket chain (`s_hash_entry *` linked by `next`) is a `List Entry`;
  pushing at the head (`e->next = buckets[idx]; buckets[idx] = e`) is
  `List.cons`, walking the chain is walking the list front to back.
* `hash_get` in C returns a pointer into the entry (`entry_value`); the
  embedding returns the matching `Entry`, from which both the value
  address (`entry_value_addr`) and the value bytes are read.
* `hash_init` and `hash_free` perform resource acquisition/release; the
  embedding returns effect records (`InitResult`, `FreeResult`) recording
  which resources are held, which frees happen, and in what order the
  value destructor is invoked.
-/

/-- HASH_ARENA_ALIGN is `alignof(max_align_t)`: 16 on the LP64 platform model. -/
def HASH_ARENA_ALIGN : Nat := 16

/-- sizeof(s_hash_entry): a single pointer field, 8 bytes on LP64. -/
def SIZEOF_HASH_ENTRY : Nat := 8

/-- Width of `size_t` as a modulus, `2 ^ 64` on LP64. -/
def SIZE_T_MOD : Nat := 2 ^ 64

/-- C: `(x + HASH_ARENA_ALIGN - 1) & ~(HASH_ARENA_ALIGN - 1)` in `size_t`
arithmetic: the sum wraps modulo `2 ^ 64` and `~(HASH_ARENA_ALIGN - 1)`
is the 64-bit mask `2 ^ 64 - 16`. -/
def align_up (x : Nat) : Nat :=
  Nat.land ((x + (HASH_ARENA_ALIGN - 1)) % SIZE_T_MOD) (SIZE_T_MOD - HASH_ARENA_ALIGN)

/-- C: `align_up(sizeof(s_hash_entry) + key_size)`. -/
def compute_entry_value_offset (key_size : Nat) : Nat :=
  align_up (SIZEOF_HASH_ENTRY + key_size)

/-- C: `compute_entry_value_offset(key_size) + value_size`. -/
def compute_entry_size (key_size value_size : Nat) : Nat :=
  compute_entry_value_offset key_size + value_size

/-- C: `align_up(compute_entry_size(key_size, value_size))`. -/
def compute_entry_stride (key_size value_size : Nat) : Nat :=
  align_up (compute_entry_size key_size value_size)

/-- One `s_hash_entry` blob: its address and the key/value bytes stored
after the link field.  The `next` link of the C struct is represented by
the position of the entry in its chain list. -/
structure Entry where
  addr : Nat
  key : List Nat
  value : List Nat
deriving DecidableEq, Repr

/-- The `s_hash_table` struct.  Function-pointer fields are passed to the
operations explicitly (see module comment); `heapNext` is the model of the
heap allocator's next return address. -/
structure HashTable where
  buckets : List (List Entry)
  nbuckets : Nat
  key_size : Nat
  value_size : Nat
  value_offset : Nat
  entry_size : Nat
  size : Nat
  arena : Option Nat
  arena_capacity : Nat
  arena_used : Nat
  arena_entry_stride : Nat
  heapNext : Nat
deriving DecidableEq, Repr

/-- C: `entry_key(e) = (char*)e + sizeof(s_hash_entry)`, the address right
after the link field. -/
def entry_key_addr (e : Entry) : Nat :=
  e.addr + SIZEOF_HASH_ENTRY

/-- C: `entry_value(ht, e) = (char*)e + ht->value_offset`. -/
def entry_value_addr (ht : HashTable) (e : Entry) : Nat :=
  e.addr + ht.value_offset

/-- C `entry_alloc`: if the arena exists and has free slots, hand out the
next slot `base + used * stride` (this path cannot fail); otherwise
`malloc(ht->entry_size)`, which fails exactly when the oracle `heapOk` is
false.  Returns the allocated address (or `none`) together with the
updated table state. -/
def entry_alloc (heapOk : Bool) (ht : HashTable) : Option Nat × HashTable :=
  match ht.arena with
  | some base =>
    if ht.arena_used < ht.arena_capacity then
      (some (base + ht.arena_used * ht.arena_entry_stride),
       { ht with arena_used := ht.arena_used + 1 })
    else if heapOk then
      (some ht.heapNext, { ht with heapNext := ht.heapNext + ht.entry_size })
    else (none, ht)
  | none =>
    if heapOk then
      (some ht.heapNext, { ht with heapNext := ht.heapNext + ht.entry_size })
    else (none, ht)

/-- C `entry_is_in_arena`: false when there is no arena, otherwise an
address-range test `base <= e && e < base + capacity * stride`. -/
def entry_is_in_arena (ht : HashTable) (e : Entry) : Bool :=
  match ht.arena with
  | none => false
  | some base =>
    decide (base ≤ e.addr) &&
    decide (e.addr < base + ht.arena_capacity * ht.arena_entry_stride)

/-- C `bucket_index`: `ht->hash(key) % ht->nbuckets`. -/
def bucket_index (hash : List Nat → Nat) (ht : HashTable) (key : List Nat) : Nat :=
  hash key % ht.nbuckets

/-- C `hash_get`: walk the chain of the selected bucket and return the
first entry whose stored key the injected equality accepts, `none`
otherwise. -/
def hash_get (hash : List Nat → Nat) (equals : List Nat → List Nat → Bool)
    (ht : HashTable) (key : List Nat) : Option Entry :=
  (ht.buckets.getD (bucket_index hash ht key) []).find? (fun e => equals e.key key)

/-- C `hash_insert`: scan the chain for a duplicate (return `-1`, table
untouched); allocate an entry (on failure return `0`, table untouched);
copy key and value bytes, push the entry at the head of the chain and
increment the live count (return `1`). -/
def hash_insert (hash : List Nat → Nat) (equals : List Nat → List Nat → Bool)
    (heapOk : Bool) (ht : HashTable) (key value : List Nat) : Int × HashTable :=
  let idx := bucket_index hash ht key
  let chain := ht.buckets.getD idx []
  if chain.any (fun e => equals e.key key) then (-1, ht)
  else
    match entry_alloc heapOk ht with
    | (none, _) => (0, ht)
    | (some addr, ht1) =>
      let e : Entry := { addr := addr, key := key, value := value }
      (1, { ht1 with buckets := ht1.buckets.set idx (e :: chain),
                     size := ht1.size + 1 })

/-- C `hash_get_or_create`: return the first matching entry unchanged, or
allocate a fresh entry, copy the key, `memset` the value region to zero,
push it at the chain head, increment the count and return it; `none` on
allocation failure (table untouched). -/
def hash_get_or_create (hash : List Nat → Nat) (equals : List Nat → List Nat → Bool)
    (heapOk : Bool) (ht : HashTable) (key : List Nat) : Option Entry × HashTable :=
  let idx := bucket_index hash ht key
  let chain := ht.buckets.getD idx []
  match chain.find? (fun e => equals e.key key) with
  | some e => (some e, ht)
  | none =>
    match entry_alloc heapOk ht with
    | (none, _) => (none, ht)
    | (some addr, ht1) =>
      let e : Entry := { addr := addr, key := key,
                         value := List.replicate ht.value_size 0 }
      (some e, { ht1 with buckets := ht1.buckets.set idx (e :: chain),
                          size := ht1.size + 1 })

/-- Outcome of `hash_init`: the C return code, the constructed table when
it succeeds, and which acquired resources are still held when the call
returns (`calloc`ed bucket array, `malloc`ed arena block). -/
structure InitResult where
  ret : Int
  table : Option HashTable
  bucketArrayHeld : Bool
  arenaHeld : Bool
deriving DecidableEq, Repr

/-- C `hash_init`.  `bucketsOk`/`arenaOk` are the oracles for the two
allocations (`calloc` of the bucket array, `malloc` of the arena block);
`arenaBase` is the address the arena `malloc` would return.  Mirrors the
source control flow: reject `nbuckets < 1`; allocate and zero the bucket
array; fill in the geometry fields; when `expected_entries > 0` compute
the stride and allocate the arena, and on arena failure `free` the bucket
array before returning `0`. -/
def hash_init (key_size value_size nbuckets expected_entries : Nat)
    (bucketsOk arenaOk : Bool) (arenaBase : Nat) : InitResult :=
  if nbuckets < 1 then
    { ret := 0, table := none, bucketArrayHeld := false, arenaHeld := false }
  else if bucketsOk = false then
    { ret := 0, table := none, bucketArrayHeld := false, arenaHeld := false }
  else
    let ht0 : HashTable :=
      { buckets := List.replicate nbuckets [],
        nbuckets := nbuckets,
        key_size := key_size,
        value_size := value_size,
        value_offset := compute_entry_value_offset key_size,
        entry_size := compute_entry_size key_size value_size,
        size := 0,
        arena := none, arena_capacity := 0, arena_used := 0,
        arena_entry_stride := 0,
        heapNext := 0 }
    if 0 < expected_entries then
      let stride := compute_entry_stride key_size value_size
      if arenaOk = false then
        { ret := 0, table := none, bucketArrayHeld := false, arenaHeld := false }
      else
        { ret := 1,
          table := some { ht0 with
            arena := some arenaBase,
            arena_capacity := expected_entries,
            arena_used := 0,
            arena_entry_stride := stride,
            heapNext := arenaBase + expected_entries * stride },
          bucketArrayHeld := true, arenaHeld := true }
    else
      { ret := 1, table := some ht0, bucketArrayHeld := true, arenaHeld := false }

/-- The table after `memset(ht, 0, sizeof(s_hash_table))`. -/
def zeroTable : HashTable :=
  { buckets := [], nbuckets := 0, key_size := 0, value_size := 0,
    value_offset := 0, entry_size := 0, size := 0,
    arena := none, arena_capacity := 0, arena_used := 0,
    arena_entry_stride := 0, heapNext := 0 }

/-- Outcome of `hash_free`: the entries on which the value destructor was
invoked, in invocation order; the entries released individually by
`free(e)`; whether the arena block and the bucket array were released;
and the table left behind. -/
structure FreeResult where
  destructorCalls : List Entry
  freedEntries : List Entry
  arenaFreed : Bool
  bucketArrayFreed : Bool
  table : HashTable
deriving DecidableEq, Repr

/-- Inner loop of C `hash_free` over one bucket chain: per entry, invoke
the value destructor when one was supplied, then `free` the entry when it
is not arena-resident.  Returns (destructor invocations, individual
frees), each in walk order. -/
def free_chain (hasDtor : Bool) (ht : HashTable) :
    List Entry → List Entry × List Entry
  | [] => ([], [])
  | e :: rest =>
    let r := free_chain hasDtor ht rest
    ((if hasDtor then [e] else []) ++ r.1,
     (if entry_is_in_arena ht e then [] else [e]) ++ r.2)

/-- Outer loop of C `hash_free` over the bucket array, front to back. -/
def free_buckets (hasDtor : Bool) (ht : HashTable) :
    List (List Entry) → List Entry × List Entry
  | [] => ([], [])
  | c :: rest =>
    let r1 := free_chain hasDtor ht c
    let r2 := free_buckets hasDtor ht rest
    (r1.1 ++ r2.1, r1.2 ++ r2.2)

/-- C `hash_free`: walk every chain (destructor and per-entry frees), then
`free` the arena block when present, `free` the bucket array, and zero the
table struct.  `hasDtor` models whether `ht->value_free` is non-NULL. -/
def hash_free (hasDtor : Bool) (ht : HashTable) : FreeResult :=
  let r := free_buckets hasDtor ht ht.buckets
  { destructorCalls := r.1,
    freedEntries := r.2,
    arenaFreed := ht.arena.isSome,
    bucketArrayFreed := true,
    table := zeroTable }

/-- All live entries of the table, in the order `hash_free` walks them. -/
def allEntries (ht : HashTable) : List Entry :=
  ht.buckets.flatten

/-- Number of entries reachable by walking all bucket chains. -/
def totalEntries (ht : HashTable) : Nat :=
  (allEntries ht).length

/-- One API call on a table, with its heap-allocation oracle. -/
inductive Op where
  | get (key : List Nat)
  | insert (heapOk : Bool) (key value : List Nat)
  | getOrCreate (heapOk : Bool) (key : List Nat)
deriving DecidableEq, Repr

/-- State transformer of one API call (`hash_get` never mutates). -/
def applyOp (hash : List Nat → Nat) (equals : List Nat → List Nat → Bool)
    (ht : HashTable) : Op → HashTable
  | .get _ => ht
  | .insert heapOk k v => (hash_insert hash equals heapOk ht k v).2
  | .getOrCreate heapOk k => (hash_get_or_create hash equals heapOk ht k).2

/-- State after a sequence of API calls. -/
def applyOps (hash : List Nat → Nat) (equals : List Nat → List Nat → Bool)
    (ht : HashTable) (ops : List Op) : HashTable :=
  ops.foldl (applyOp hash equals) ht

/-- Creation-time well-formedness carried by the reachability induction:
positive bucket count, bucket array of the advertised length, the
creation-time parameters intact, and live count equal to the chain walk. -/
def TableInv (ks vs nb : Nat) (ht : HashTable) : Prop :=
  0 < nb ∧ ht.buckets.length = nb ∧ ht.nbuckets = nb ∧
  ht.key_size = ks ∧ ht.value_size = vs ∧ ht.size = totalEntries ht

/-- Concrete table used by witness theorems: geometry of key_size 4 and
value_size 8, four buckets, an arena of two slots at base 4096 with one
slot already used, heap model pointing past the arena block. -/
def witnessTable : HashTable :=
  { buckets := [[], [], [], []], nbuckets := 4, key_size := 4,
    value_size := 8, value_offset := 16, entry_size := 24, size := 0,
    arena := some 4096, arena_capacity := 2, arena_used := 1,
    arena_entry_stride := 32, heapNext := 4160 }

/-- Hash function used by witnesses: the first key byte. -/
def wHash (k : List Nat) : Nat := k.headD 0

/-- Key equality used by witnesses: byte-list equality. -/
def wEquals (a b : List Nat) : Bool := a == b

/-- Witness entry in arena slot 0. -/
def w1 : Entry := { addr := 4096, key := [1, 0, 0, 0], value := [1, 2, 3, 4, 5, 6, 7, 8] }

/-- Witness entry in arena slot 1. -/
def w2 : Entry := { addr := 4128, key := [2, 0, 0, 0], value := [9, 9, 9, 9, 9, 9, 9, 9] }

/-- Witness entry from heap fallback (address past the arena block). -/
def w3 : Entry := { addr := 4160, key := [5, 0, 0, 0], value := [0, 0, 0, 0, 0, 0, 0, 0] }

/-- Populated witness table: keys 1 and 5 collide in bucket 1 (hash mod
4), key 2 sits in bucket 2; the arena is exhausted and one entry came
from the heap. -/
def witnessTableFull : HashTable :=
  { buckets := [[], [w3, w1], [w2], []], nbuckets := 4, key_size := 4,
    value_size := 8, value_offset := 16, entry_size := 24, size := 3,
    arena := some 4096, arena_capacity := 2, arena_used := 2,
    arena_entry_stride := 32, heapNext := 4184 }

/-! Helper lemmas. -/

/-- Masking a 64-bit value with the bit pattern of `~15` clears its low
four bits, i.e. rounds it down to a multiple of 16. -/
theorem land_sixteen_mask (y : Nat) (hy : y < 2 ^ 64) :
    y &&& (2 ^ 64 - 16) = y / 16 * 16 := by
  have hmask : (2 : Nat) ^ 64 - 16 = (2 ^ 60 - 1) <<< 4 := by
    rw [Nat.shiftLeft_eq]; norm_num
  have hr : y / 16 * 16 = (y >>> 4) <<< 4 := by
    rw [Nat.shiftRight_eq_div_pow, Nat.shiftLeft_eq]
  rw [hmask, hr]
  apply Nat.eq_of_testBit_eq
  intro i
  rw [Nat.testBit_land, Nat.testBit_shiftLeft, Nat.testBit_shiftLeft,
    Nat.testBit_two_pow_sub_one, Nat.testBit_shiftRight]
  by_cases h4 : 4 ≤ i
  · have h44 : 4 + (i - 4) = i := by omega
    by_cases h64 : i < 64
    · simp [ge_iff_le, h4, h44, show i - 4 < 60 by omega]
    · have hbit : y.testBit i = false :=
        Nat.testBit_lt_two_pow
          (lt_of_lt_of_le hy (Nat.pow_le_pow_right (by norm_num) (by omega)))
      simp [ge_iff_le, h4, h44, show ¬ i - 4 < 60 by omega, hbit]
  · simp [ge_iff_le, h4]

/-- As long as the `size_t` addition does not wrap, the bitmask in
`align_up` computes the round-up to a multiple of 16. -/
theorem align_up_eq_div_mul (x : Nat) (hx : x + 15 < 2 ^ 64) :
    align_up x = (x + 15) / 16 * 16 := by
  have h : align_up x = ((x + 15) % 2 ^ 64) &&& (2 ^ 64 - 16) := rfl
  rw [h, Nat.mod_eq_of_lt hx]
  exact land_sixteen_mask (x + 15) hx

/-- Round-up specification of `align_up`: the result is the least multiple
of `HASH_ARENA_ALIGN = 16` that is at least `x`. -/
theorem align_up_spec (x : Nat) (hx : x + 15 < 2 ^ 64) :
    16 ∣ align_up x ∧ x ≤ align_up x ∧ align_up x < x + 16 := by
  rw [align_up_eq_div_mul x hx]
  exact ⟨dvd_mul_left 16 ((x + 15) / 16), by omega, by omega⟩

/-- Reading back the bucket just written. -/
theorem getD_set_self {α : Type} (l : List α) (i : Nat) (a d : α)
    (h : i < l.length) : (l.set i a).getD i d = a := by
  induction l generalizing i with
  | nil => simp at h
  | cons x xs ih =>
    cases i with
    | zero => rfl
    | succ n => simpa using ih n (by simpa using h)

/-- Pushing one element onto bucket `i` grows the chain walk by one. -/
theorem length_flatten_set_cons {α : Type} (l : List (List α)) (i : Nat) (e : α)
    (h : i < l.length) :
    ((l.set i (e :: l.getD i [])).flatten).length = l.flatten.length + 1 := by
  induction l generalizing i with
  | nil => simp at h
  | cons c cs ih =>
    cases i with
    | zero => simp
    | succ n =>
      have hn : n < cs.length := by simpa using h
      have ih2 := ih n hn
      simp only [List.set_cons_succ, List.getD_cons_succ, List.flatten_cons,
        List.length_append, ih2]
      omega

/-- Unrolled specification of the chain loop of `hash_free`. -/
theorem free_chain_spec (hasDtor : Bool) (ht : HashTable) (c : List Entry) :
    free_chain hasDtor ht c =
      ((if hasDtor then c else []),
       c.filter (fun e => !(entry_is_in_arena ht e))) := by
  induction c with
  | nil => cases hasDtor <;> simp [free_chain]
  | cons e rest ih =>
    cases hasDtor <;>
      cases harena : entry_is_in_arena ht e <;>
        simp [free_chain, ih, harena, List.filter_cons]

/-- Unrolled specification of the bucket loop of `hash_free`. -/
theorem free_buckets_spec (hasDtor : Bool) (ht : HashTable) (bs : List (List Entry)) :
    free_buckets hasDtor ht bs =
      ((if hasDtor then bs.flatten else []),
       bs.flatten.filter (fun e => !(entry_is_in_arena ht e))) := by
  induction bs with
  | nil => cases hasDtor <;> simp [free_buckets]
  | cons c rest ih =>
    cases hasDtor <;>
      simp [free_buckets, free_chain_spec, ih, List.filter_append]

/-- Allocation touches only the allocator state: buckets, geometry and the
live count are unchanged by `entry_alloc`. -/
theorem entry_alloc_frame (heapOk : Bool) (ht : HashTable) (o : Option Nat)
    (ht1 : HashTable) (h : entry_alloc heapOk ht = (o, ht1)) :
    ht1.buckets = ht.buckets ∧ ht1.nbuckets = ht.nbuckets ∧
    ht1.key_size = ht.key_size ∧ ht1.value_size = ht.value_size ∧
    ht1.size = ht.size ∧ ht1.value_offset = ht.value_offset ∧
    ht1.entry_size = ht.entry_size := by
  have h2 : ht1 = (entry_alloc heapOk ht).2 := by rw [h]
  subst h2
  by_cases hu : ht.arena_used < ht.arena_capacity <;>
    rcases harena : ht.arena with _ | base <;>
      cases heapOk <;>
        simp [entry_alloc, harena, hu]

/-- Flattening an all-empty bucket array gives no entries. -/
theorem flatten_replicate_nil {α : Type} (n : Nat) :
    (List.replicate n ([] : List α)).flatten = [] := by
  induction n with
  | zero => rfl
  | succ m ih => simp [List.replicate_succ, ih]

/-- A successful `hash_init` establishes the invariant. -/
theorem hash_init_inv (ks vs nb ee : Nat) (bOk aOk : Bool) (base : Nat)
    (ht0 : HashTable)
    (h : (hash_init ks vs nb ee bOk aOk base).table = some ht0) :
    TableInv ks vs nb ht0 := by
  unfold hash_init at h
  by_cases h1 : nb < 1
  · simp [h1] at h
  · by_cases h2 : bOk = false
    · simp [h1, h2] at h
    · by_cases h3 : 0 < ee
      · by_cases h4 : aOk = false
        · simp [h1, h2, h3, h4] at h
        · simp [h1, h2, h3, h4] at h
          subst h
          refine ⟨by omega, by simp, rfl, rfl, rfl, ?_⟩
          simp [totalEntries, allEntries, flatten_replicate_nil]
      · simp [h1, h2, h3] at h
        subst h
        refine ⟨by omega, by simp, rfl, rfl, rfl, ?_⟩
        simp [totalEntries, allEntries, flatten_replicate_nil]

/-- The bucket index is in range for any well-formed table. -/
theorem bucket_index_lt (hash : List Nat → Nat) (ht : HashTable)
    (key : List Nat) (h : 0 < ht.nbuckets) :
    bucket_index hash ht key < ht.nbuckets :=
  Nat.mod_lt _ h

/-- Duplicate branch of `hash_insert`. -/
theorem hash_insert_dup (hash : List Nat → Nat) (equals : List Nat → List Nat → Bool)
    (heapOk : Bool) (ht : HashTable) (k v : List Nat)
    (hdup : (ht.buckets.getD (bucket_index hash ht k) []).any
      (fun e => equals e.key k) = true) :
    hash_insert hash equals heapOk ht k v = (-1, ht) := by
  simp only [hash_insert]
  rw [if_pos hdup]

/-- Allocation-failure branch of `hash_insert`. -/
theorem hash_insert_alloc_fail (hash : List Nat → Nat)
    (equals : List Nat → List Nat → Bool) (heapOk : Bool) (ht : HashTable)
    (k v : List Nat) (ht1 : HashTable)
    (hdup : ¬ ((ht.buckets.getD (bucket_index hash ht k) []).any
      (fun e => equals e.key k) = true))
    (halloc : entry_alloc heapOk ht = (none, ht1)) :
    hash_insert hash equals heapOk ht k v = (0, ht) := by
  simp only [hash_insert]
  rw [if_neg hdup, halloc]

/-- Success branch of `hash_insert`. -/
theorem hash_insert_success_eq (hash : List Nat → Nat)
    (equals : List Nat → List Nat → Bool) (heapOk : Bool) (ht : HashTable)
    (k v : List Nat) (addr : Nat) (ht1 : HashTable)
    (hdup : ¬ ((ht.buckets.getD (bucket_index hash ht k) []).any
      (fun e => equals e.key k) = true))
    (halloc : entry_alloc heapOk ht = (some addr, ht1)) :
    hash_insert hash equals heapOk ht k v =
      (1, { ht1 with
            buckets := ht1.buckets.set (bucket_index hash ht k)
              ({ addr := addr, key := k, value := v } ::
                ht.buckets.getD (bucket_index hash ht k) []),
            size := ht1.size + 1 }) := by
  simp only [hash_insert]
  rw [if_neg hdup, halloc]

/-- Found branch of `hash_get_or_create`. -/
theorem hash_get_or_create_found (hash : List Nat → Nat)
    (equals : List Nat → List Nat → Bool) (heapOk : Bool) (ht : HashTable)
    (k : List Nat) (e0 : Entry)
    (hfind : (ht.buckets.getD (bucket_index hash ht k) []).find?
      (fun e => equals e.key k) = some e0) :
    hash_get_or_create hash equals heapOk ht k = (some e0, ht) := by
  simp only [hash_get_or_create]
  rw [hfind]

/-- Allocation-failure branch of `hash_get_or_create`. -/
theorem hash_get_or_create_alloc_fail (hash : List Nat → Nat)
    (equals : List Nat → List Nat → Bool) (heapOk : Bool) (ht : HashTable)
    (k : List Nat) (ht1 : HashTable)
    (hfind : (ht.buckets.getD (bucket_index hash ht k) []).find?
      (fun e => equals e.key k) = none)
    (halloc : entry_alloc heapOk ht = (none, ht1)) :
    hash_get_or_create hash equals heapOk ht k = (none, ht) := by
  simp only [hash_get_or_create]
  rw [hfind, halloc]

/-- Creation branch of `hash_get_or_create`. -/
theorem hash_get_or_create_create (hash : List Nat → Nat)
    (equals : List Nat → List Nat → Bool) (heapOk : Bool) (ht : HashTable)
    (k : List Nat) (addr : Nat) (ht1 : HashTable)
    (hfind : (ht.buckets.getD (bucket_index hash ht k) []).find?
      (fun e => equals e.key k) = none)
    (halloc : entry_alloc heapOk ht = (some addr, ht1)) :
    hash_get_or_create hash equals heapOk ht k =
      (some { addr := addr, key := k, value := List.replicate ht.value_size 0 },
       { ht1 with
         buckets := ht1.buckets.set (bucket_index hash ht k)
           ({ addr := addr, key := k, value := List.replicate ht.value_size 0 } ::
             ht.buckets.getD (bucket_index hash ht k) []),
         size := ht1.size + 1 }) := by
  simp only [hash_get_or_create]
  rw [hfind, halloc]

/-- `hash_insert` preserves the invariant. -/
theorem TableInv_hash_insert (ks vs nb : Nat) (hash : List Nat → Nat)
    (equals : List Nat → List Nat → Bool) (heapOk : Bool)
    (ht : HashTable) (k v : List Nat) (h : TableInv ks vs nb ht) :
    TableInv ks vs nb (hash_insert hash equals heapOk ht k v).2 := by
  obtain ⟨hnb, hlen, hnbk, hks, hvs, hsz⟩ := h
  have hidxlt : bucket_index hash ht k < ht.buckets.length := by
    rw [hlen, ← hnbk]
    exact bucket_index_lt hash ht k (by omega)
  by_cases hdup : (ht.buckets.getD (bucket_index hash ht k) []).any
      (fun e => equals e.key k) = true
  · rw [hash_insert_dup hash equals heapOk ht k v hdup]
    exact ⟨hnb, hlen, hnbk, hks, hvs, hsz⟩
  · rcases h2 : entry_alloc heapOk ht with ⟨o, ht1⟩
    obtain ⟨hb, hn, hk, hv, hs, _, _⟩ := entry_alloc_frame heapOk ht o ht1 h2
    cases o with
    | none =>
      rw [hash_insert_alloc_fail hash equals heapOk ht k v ht1 hdup h2]
      exact ⟨hnb, hlen, hnbk, hks, hvs, hsz⟩
    | some addr =>
      rw [hash_insert_success_eq hash equals heapOk ht k v addr ht1 hdup h2]
      refine ⟨hnb, ?_, by simp [hn, hnbk], by simp [hk, hks], by simp [hv, hvs], ?_⟩
      · simp [hb, hlen]
      · show ht1.size + 1 =
          (ht1.buckets.set (bucket_index hash ht k)
            ({ addr := addr, key := k, value := v } ::
              ht.buckets.getD (bucket_index hash ht k) [])).flatten.length
        rw [hb, hs, hsz, length_flatten_set_cons ht.buckets _ _ hidxlt]
        rfl

/-- `hash_get_or_create` preserves the invariant. -/
theorem TableInv_hash_get_or_create (ks vs nb : Nat) (hash : List Nat → Nat)
    (equals : List Nat → List Nat → Bool) (heapOk : Bool)
    (ht : HashTable) (k : List Nat) (h : TableInv ks vs nb ht) :
    TableInv ks vs nb (hash_get_or_create hash equals heapOk ht k).2 := by
  obtain ⟨hnb, hlen, hnbk, hks, hvs, hsz⟩ := h
  have hidxlt : bucket_index hash ht k < ht.buckets.length := by
    rw [hlen, ← hnbk]
    exact bucket_index_lt hash ht k (by omega)
  rcases hfind : (ht.buckets.getD (bucket_index hash ht k) []).find?
      (fun e => equals e.key k) with _ | e0
  · rcases h2 : entry_alloc heapOk ht with ⟨o, ht1⟩
    obtain ⟨hb, hn, hk, hv, hs, _, _⟩ := entry_alloc_frame heapOk ht o ht1 h2
    cases o with
    | none =>
      rw [hash_get_or_create_alloc_fail hash equals heapOk ht k ht1 hfind h2]
      exact ⟨hnb, hlen, hnbk, hks, hvs, hsz⟩
    | some addr =>
      rw [hash_get_or_create_create hash equals heapOk ht k addr ht1 hfind h2]
      refine ⟨hnb, ?_, by simp [hn, hnbk], by simp [hk, hks], by simp [hv, hvs], ?_⟩
      · simp [hb, hlen]
      · show ht1.size + 1 =
          (ht1.buckets.set (bucket_index hash ht k)
            ({ addr := addr, key := k, value := List.replicate ht.value_size 0 } ::
              ht.buckets.getD (bucket_index hash ht k) [])).flatten.length
        rw [hb, hs, hsz, length_flatten_set_cons ht.buckets _ _ hidxlt]
        rfl
  · rw [hash_get_or_create_found hash equals heapOk ht k e0 hfind]
    exact ⟨hnb, hlen, hnbk, hks, hvs, hsz⟩

/-- Any sequence of API calls preserves the invariant. -/
theorem TableInv_applyOps (ks vs nb : Nat) (hash : List Nat → Nat)
    (equals : List Nat → List Nat → Bool) (ops : List Op)
    (ht : HashTable) (h : TableInv ks vs nb ht) :
    TableInv ks vs nb (applyOps hash equals ht ops) := by
  induction ops generalizing ht with
  | nil => exact h
  | cons op rest ih =>
    show TableInv ks vs nb (applyOps hash equals (applyOp hash equals ht op) rest)
    apply ih
    cases op with
    | get k => exact h
    | insert heapOk k v => exact TableInv_hash_insert ks vs nb hash equals heapOk ht k v h
    | getOrCreate heapOk k => exact TableInv_hash_get_or_create ks vs nb hash equals heapOk ht k h

/-! Claim theorems. -/

/-- C6: Layout arithmetic.  For every key_size and value_size (bounded so
the size_t additions cannot wrap), the cached geometry satisfies
value_offset = align_up(sizeof(link field) + key_size), entry_size =
value_offset + value_size, and stride = align_up(entry_size), where
align_up rounds up to the platform's maximum scalar alignment
(alignof(max_align_t) = HASH_ARENA_ALIGN): the rounded values are
multiples of the alignment, at least the rounded argument, and less than
one alignment above it.  key_at(entry) is the address immediately after
the link field and value_at(entry) is entry + value_offset. -/
theorem c6_layout_arithmetic (ks vs : Nat) (h : ks + vs + 39 < 2 ^ 64) :
    compute_entry_value_offset ks = align_up (SIZEOF_HASH_ENTRY + ks) ∧
    compute_entry_size ks vs = compute_entry_value_offset ks + vs ∧
    compute_entry_stride ks vs = align_up (compute_entry_size ks vs) ∧
    HASH_ARENA_ALIGN ∣ compute_entry_value_offset ks ∧
    SIZEOF_HASH_ENTRY + ks ≤ compute_entry_value_offset ks ∧
    compute_entry_value_offset ks < SIZEOF_HASH_ENTRY + ks + HASH_ARENA_ALIGN ∧
    HASH_ARENA_ALIGN ∣ compute_entry_stride ks vs ∧
    compute_entry_size ks vs ≤ compute_entry_stride ks vs ∧
    compute_entry_stride ks vs < compute_entry_size ks vs + HASH_ARENA_ALIGN ∧
    (∀ e : Entry, entry_key_addr e = e.addr + SIZEOF_HASH_ENTRY) ∧
    (∀ (ht : HashTable) (e : Entry), entry_value_addr ht e = e.addr + ht.value_offset) := by
  have h1 : (SIZEOF_HASH_ENTRY + ks) + 15 < 2 ^ 64 := by
    simp only [SIZEOF_HASH_ENTRY]; omega
  obtain ⟨hd1, hle1, hlt1⟩ := align_up_spec (SIZEOF_HASH_ENTRY + ks) h1
  have h2 : compute_entry_size ks vs + 15 < 2 ^ 64 := by
    have : compute_entry_size ks vs = align_up (SIZEOF_HASH_ENTRY + ks) + vs := rfl
    rw [this]
    simp only [SIZEOF_HASH_ENTRY] at *
    omega
  obtain ⟨hd2, hle2, hlt2⟩ := align_up_spec (compute_entry_size ks vs) h2
  exact ⟨rfl, rfl, rfl, hd1, hle1, hlt1, hd2, hle2, hlt2,
    fun e => rfl, fun ht e => rfl⟩

/-- C6 witness: the layout contract at key_size 4, value_size 8 (the
spec's worked scenario). -/
theorem c6_layout_arithmetic_witness :
    4 + 8 + 39 < 2 ^ 64 ∧
    (HASH_ARENA_ALIGN ∣ compute_entry_value_offset 4 ∧
     SIZEOF_HASH_ENTRY + 4 ≤ compute_entry_value_offset 4 ∧
     compute_entry_size 4 8 ≤ compute_entry_stride 4 8) :=
  ⟨by norm_num,
   (c6_layout_arithmetic 4 8 (by norm_num)).2.2.2.1,
   (c6_layout_arithmetic 4 8 (by norm_num)).2.2.2.2.1,
   (c6_layout_arithmetic 4 8 (by norm_num)).2.2.2.2.2.2.2.1⟩

/-- C9: Construction failure semantics.  hash_init returns 0 exactly when
bucket_count < 1, the bucket-array allocation fails, or the requested
arena allocation fails; and whenever it returns 0 no acquired resource is
still held — in particular, in the branch where the bucket array was
acquired and the arena allocation then failed, the bucket array has been
released. -/
theorem c9_init_failure_semantics (ks vs nb ee : Nat) (bOk aOk : Bool) (base : Nat) :
    ((hash_init ks vs nb ee bOk aOk base).ret = 0 ↔
      (nb < 1 ∨ bOk = false ∨ (0 < ee ∧ aOk = false))) ∧
    ((hash_init ks vs nb ee bOk aOk base).ret = 0 →
      (hash_init ks vs nb ee bOk aOk base).bucketArrayHeld = false ∧
      (hash_init ks vs nb ee bOk aOk base).arenaHeld = false) := by
  by_cases h1 : nb < 1 <;> cases bOk <;> by_cases h3 : 0 < ee <;> cases aOk <;>
    simp [hash_init, h1, h3]

/-- C9 witness: arena allocation fails after the bucket array was
acquired (nb = 4, expected_entries = 1, arena oracle false). -/
theorem c9_init_failure_semantics_witness :
    ((hash_init 4 8 4 1 true false 1000).ret = 0 ↔
      (4 < 1 ∨ true = false ∨ (0 < 1 ∧ false = false))) ∧
    ((hash_init 4 8 4 1 true false 1000).ret = 0 →
      (hash_init 4 8 4 1 true false 1000).bucketArrayHeld = false ∧
      (hash_init 4 8 4 1 true false 1000).arenaHeld = false) :=
  c9_init_failure_semantics 4 8 4 1 true false 1000

/-- C5: Teardown protocol.  hash_free walks every bucket chain in order;
when a value destructor was supplied it is invoked exactly once per live
entry (regardless of arena or heap origin) and never otherwise; exactly
the entries that are not arena-resident are released individually; the
arena block is released as one unit exactly when present; the bucket
array is released; and the table struct is reset to the all-zero state. -/
theorem c5_teardown_protocol (hasDtor : Bool) (ht : HashTable) :
    (hash_free hasDtor ht).destructorCalls =
      (if hasDtor then allEntries ht else []) ∧
    (∀ e : Entry, (hash_free true ht).destructorCalls.count e =
      (allEntries ht).count e) ∧
    (hash_free hasDtor ht).freedEntries =
      (allEntries ht).filter (fun e => !(entry_is_in_arena ht e)) ∧
    (hash_free hasDtor ht).arenaFreed = ht.arena.isSome ∧
    (hash_free hasDtor ht).bucketArrayFreed = true ∧
    (hash_free hasDtor ht).table = zeroTable := by
  have h1 := free_buckets_spec hasDtor ht ht.buckets
  have h2 := free_buckets_spec true ht ht.buckets
  refine ⟨?_, ?_, ?_, rfl, rfl, rfl⟩
  · show (free_buckets hasDtor ht ht.buckets).1 = _
    rw [h1]
    cases hasDtor <;> simp [allEntries]
  · intro e
    show ((free_buckets true ht ht.buckets).1).count e = _
    rw [h2]
    simp [allEntries]
  · show (free_buckets hasDtor ht ht.buckets).2 = _
    rw [h1]
    simp [allEntries]

/-- C4: Arena-first allocation order.  For a successfully constructed
table with expected_entries = N > 0, the arena starts with capacity N and
zero slots used, the stride cached at construction, and the heap model
pointing past the arena block.  While slots remain, entry_alloc succeeds
regardless of the heap oracle and returns base + used*stride, advancing
used by one; that address is classified arena-resident.  Once used
reaches capacity, entry_alloc falls back to an exact entry_size heap
allocation, which fails exactly when the heap oracle does, and the
heap-produced address (lying past the arena block) is not classified
arena-resident.  get and insert never inspect an entry's origin. -/
theorem c4_arena_first_allocation (ht : HashTable) (base : Nat)
    (heapOk : Bool) (k v : List Nat) (harena : ht.arena = some base) :
    (ht.arena_used < ht.arena_capacity →
      entry_alloc heapOk ht =
        (some (base + ht.arena_used * ht.arena_entry_stride),
         { ht with arena_used := ht.arena_used + 1 }) ∧
      (0 < ht.arena_entry_stride →
        entry_is_in_arena ht
          { addr := base + ht.arena_used * ht.arena_entry_stride,
            key := k, value := v } = true)) ∧
    (ht.arena_capacity ≤ ht.arena_used →
      entry_alloc true ht =
        (some ht.heapNext, { ht with heapNext := ht.heapNext + ht.entry_size }) ∧
      entry_alloc false ht = (none, ht) ∧
      (base + ht.arena_capacity * ht.arena_entry_stride ≤ ht.heapNext →
        entry_is_in_arena ht
          { addr := ht.heapNext, key := k, value := v } = false)) ∧
    (∀ (ks vs nb ee : Nat) (bOk aOk : Bool) (b0 : Nat) (ht0 : HashTable),
      0 < ee → (hash_init ks vs nb ee bOk aOk b0).table = some ht0 →
      ht0.arena = some b0 ∧ ht0.arena_capacity = ee ∧ ht0.arena_used = 0 ∧
      ht0.arena_entry_stride = compute_entry_stride ks vs ∧
      ht0.heapNext = b0 + ee * compute_entry_stride ks vs) := by
  refine ⟨?_, ?_, ?_⟩
  · intro hu
    constructor
    · simp only [entry_alloc, harena]
      rw [if_pos hu]
    · intro hstride
      simp only [entry_is_in_arena, harena]
      have hlt : ht.arena_used * ht.arena_entry_stride <
          ht.arena_capacity * ht.arena_entry_stride :=
        Nat.mul_lt_mul_of_lt_of_le hu (le_refl _) (by omega)
      simp [hlt]
  · intro hfull
    have hnolt : ¬ ht.arena_used < ht.arena_capacity := by omega
    refine ⟨?_, ?_, ?_⟩
    · simp only [entry_alloc, harena]
      rw [if_neg hnolt]
      simp
    · simp only [entry_alloc, harena]
      rw [if_neg hnolt]
      simp
    · intro hpast
      simp only [entry_is_in_arena, harena]
      simp
      omega
  · intro ks vs nb ee bOk aOk b0 ht0 hee hinit
    unfold hash_init at hinit
    by_cases h1 : nb < 1
    · simp [h1] at hinit
    · by_cases h2 : bOk = false
      · simp [h1, h2] at hinit
      · by_cases h4 : aOk = false
        · simp [h1, h2, hee, h4] at hinit
        · simp [h1, h2, hee, h4] at hinit
          subst hinit
          exact ⟨rfl, rfl, rfl, rfl, rfl⟩

/-- C4 witness: the witness table has one free arena slot; allocation
hands out slot 1 at 4096 + 32 and classifies it arena-resident. -/
theorem c4_arena_first_allocation_witness :
    witnessTable.arena_used < witnessTable.arena_capacity ∧
    entry_alloc true witnessTable =
      (some (4096 + 1 * 32), { witnessTable with arena_used := 2 }) ∧
    entry_is_in_arena witnessTable
      { addr := 4096 + 1 * 32, key := [7], value := [9] } = true := by
  have h := (c4_arena_first_allocation witnessTable 4096 true [7] [9] rfl).1
    (by decide)
  exact ⟨by decide, h.1, h.2 (by decide)⟩

/-- C5 witness: teardown of the populated witness table (destructor
supplied). -/
theorem c5_teardown_protocol_witness :
    (hash_free true witnessTableFull).destructorCalls =
      (if true then allEntries witnessTableFull else []) ∧
    (∀ e : Entry, (hash_free true witnessTableFull).destructorCalls.count e =
      (allEntries witnessTableFull).count e) ∧
    (hash_free true witnessTableFull).freedEntries =
      (allEntries witnessTableFull).filter
        (fun e => !(entry_is_in_arena witnessTableFull e)) ∧
    (hash_free true witnessTableFull).arenaFreed = witnessTableFull.arena.isSome ∧
    (hash_free true witnessTableFull).bucketArrayFreed = true ∧
    (hash_free true witnessTableFull).table = zeroTable :=
  c5_teardown_protocol true witnessTableFull

/-- C2: First-write-wins.  When some entry of the selected chain already
matches the key under the injected equality, hash_insert returns the
DUPLICATE signal -1 and the table value is returned unchanged (same
buckets, count, allocator state), so a subsequent hash_get is the same as
before the call, and the key is indeed found by hash_get. -/
theorem c2_first_write_wins (hash : List Nat → Nat)
    (equals : List Nat → List Nat → Bool) (heapOk : Bool) (ht : HashTable)
    (k v2 : List Nat)
    (hpresent : (ht.buckets.getD (bucket_index hash ht k) []).any
      (fun e => equals e.key k) = true) :
    hash_insert hash equals heapOk ht k v2 = (-1, ht) ∧
    hash_get hash equals (hash_insert hash equals heapOk ht k v2).2 k =
      hash_get hash equals ht k ∧
    (hash_get hash equals ht k).isSome = true := by
  have h := hash_insert_dup hash equals heapOk ht k v2 hpresent
  refine ⟨h, by rw [h], ?_⟩
  rw [List.any_eq_true] at hpresent
  obtain ⟨x, hmem, hx⟩ := hpresent
  rw [hash_get, List.find?_isSome]
  exact ⟨x, hmem, hx⟩

/-- C2 witness: inserting key 1 again into the populated witness table. -/
theorem c2_first_write_wins_witness :
    hash_insert wHash wEquals true witnessTableFull [1, 0, 0, 0] [7, 7, 7, 7, 7, 7, 7, 7] =
      (-1, witnessTableFull) ∧
    hash_get wHash wEquals
      (hash_insert wHash wEquals true witnessTableFull [1, 0, 0, 0] [7, 7, 7, 7, 7, 7, 7, 7]).2
      [1, 0, 0, 0] =
      hash_get wHash wEquals witnessTableFull [1, 0, 0, 0] ∧
    (hash_get wHash wEquals witnessTableFull [1, 0, 0, 0]).isSome = true :=
  c2_first_write_wins wHash wEquals true witnessTableFull [1, 0, 0, 0]
    [7, 7, 7, 7, 7, 7, 7, 7] (by decide)

/-- C3: Insert atomicity on allocation failure.  For an absent key, when
entry_alloc cannot supply memory, hash_insert returns the error indicator
0 and the table value is exactly the pre-call one: in particular no chain
gained an entry, the live count is unchanged and the arena state is
unchanged. -/
theorem c3_insert_alloc_fail_atomic (hash : List Nat → Nat)
    (equals : List Nat → List Nat → Bool) (heapOk : Bool) (ht : HashTable)
    (k v : List Nat)
    (habsent : ¬ ((ht.buckets.getD (bucket_index hash ht k) []).any
      (fun e => equals e.key k) = true))
    (hfail : (entry_alloc heapOk ht).1 = none) :
    hash_insert hash equals heapOk ht k v = (0, ht) ∧
    (hash_insert hash equals heapOk ht k v).2.size = ht.size ∧
    (hash_insert hash equals heapOk ht k v).2.arena_used = ht.arena_used ∧
    (hash_insert hash equals heapOk ht k v).2.buckets = ht.buckets := by
  rcases h2 : entry_alloc heapOk ht with ⟨o, ht1⟩
  rw [h2] at hfail
  cases o with
  | some a => simp at hfail
  | none =>
    have h := hash_insert_alloc_fail hash equals heapOk ht k v ht1 habsent h2
    rw [h]
    exact ⟨rfl, rfl, rfl, rfl⟩

/-- C3 witness: arena exhausted and the heap oracle refuses; key 3 is
absent from the populated witness table. -/
theorem c3_insert_alloc_fail_atomic_witness :
    hash_insert wHash wEquals false witnessTableFull [3, 0, 0, 0] [1, 1, 1, 1, 1, 1, 1, 1] =
      (0, witnessTableFull) ∧
    (hash_insert wHash wEquals false witnessTableFull [3, 0, 0, 0] [1, 1, 1, 1, 1, 1, 1, 1]).2.size =
      witnessTableFull.size ∧
    (hash_insert wHash wEquals false witnessTableFull [3, 0, 0, 0] [1, 1, 1, 1, 1, 1, 1, 1]).2.arena_used =
      witnessTableFull.arena_used ∧
    (hash_insert wHash wEquals false witnessTableFull [3, 0, 0, 0] [1, 1, 1, 1, 1, 1, 1, 1]).2.buckets =
      witnessTableFull.buckets :=
  c3_insert_alloc_fail_atomic wHash wEquals false witnessTableFull [3, 0, 0, 0]
    [1, 1, 1, 1, 1, 1, 1, 1] (by decide) (by decide)

/-- C1: Round trip.  For a well-formed table (bucket array of the
advertised positive length) and a reflexive injected equality at k, if
hash_insert returns success (1) then hash_get on the resulting table
finds an entry whose value bytes are exactly v (of length
ht->value_size). -/
theorem c1_insert_get_roundtrip (hash : List Nat → Nat)
    (equals : List Nat → List Nat → Bool) (heapOk : Bool) (ht : HashTable)
    (k v : List Nat)
    (hlen : ht.buckets.length = ht.nbuckets) (hnb : 0 < ht.nbuckets)
    (hrefl : equals k k = true) (hvlen : v.length = ht.value_size)
    (hret : (hash_insert hash equals heapOk ht k v).1 = 1) :
    ∃ e : Entry,
      hash_get hash equals (hash_insert hash equals heapOk ht k v).2 k = some e ∧
      e.value = v ∧ e.value.length = ht.value_size := by
  by_cases hdup : (ht.buckets.getD (bucket_index hash ht k) []).any
      (fun e => equals e.key k) = true
  · rw [hash_insert_dup hash equals heapOk ht k v hdup] at hret
    norm_num at hret
  · rcases h2 : entry_alloc heapOk ht with ⟨o, ht1⟩
    obtain ⟨hb, hn, _, _, _, _, _⟩ := entry_alloc_frame heapOk ht o ht1 h2
    cases o with
    | none =>
      rw [hash_insert_alloc_fail hash equals heapOk ht k v ht1 hdup h2] at hret
      norm_num at hret
    | some addr =>
      have hins := hash_insert_success_eq hash equals heapOk ht k v addr ht1 hdup h2
      have hidxlt : bucket_index hash ht k < ht1.buckets.length := by
        rw [hb, hlen]
        exact bucket_index_lt hash ht k hnb
      refine ⟨{ addr := addr, key := k, value := v }, ?_, rfl, hvlen⟩
      rw [hins]
      show hash_get hash equals
        { ht1 with
          buckets := ht1.buckets.set (bucket_index hash ht k)
            ({ addr := addr, key := k, value := v } ::
              ht.buckets.getD (bucket_index hash ht k) []),
          size := ht1.size + 1 } k = _
      have hidx2 : bucket_index hash
          { ht1 with
            buckets := ht1.buckets.set (bucket_index hash ht k)
              ({ addr := addr, key := k, value := v } ::
                ht.buckets.getD (bucket_index hash ht k) []),
            size := ht1.size + 1 } k = bucket_index hash ht k := by
        simp [bucket_index, hn]
      rw [hash_get, hidx2]
      show ((ht1.buckets.set (bucket_index hash ht k)
        ({ addr := addr, key := k, value := v } ::
          ht.buckets.getD (bucket_index hash ht k) [])).getD
            (bucket_index hash ht k) []).find? (fun e => equals e.key k) = _
      rw [getD_set_self ht1.buckets (bucket_index hash ht k) _ [] hidxlt]
      rw [List.find?_cons_of_pos]
      exact hrefl

/-- C1 witness: inserting the absent key 3 into the populated witness
table (heap fallback) and reading it back. -/
theorem c1_insert_get_roundtrip_witness :
    ∃ e : Entry,
      hash_get wHash wEquals
        (hash_insert wHash wEquals true witnessTableFull [3, 0, 0, 0]
          [4, 4, 4, 4, 4, 4, 4, 4]).2 [3, 0, 0, 0] = some e ∧
      e.value = [4, 4, 4, 4, 4, 4, 4, 4] ∧
      e.value.length = witnessTableFull.value_size :=
  c1_insert_get_roundtrip wHash wEquals true witnessTableFull [3, 0, 0, 0]
    [4, 4, 4, 4, 4, 4, 4, 4] (by decide) (by decide) (by decide) (by decide)
    (by decide)

/-- C7: get_or_create idempotence.  For a well-formed table and a
reflexive injected equality at k, if one call returned entry e1 and table
ht1, a second call returns exactly the same entry and the same table: the
same value-region address entry + value_offset, no allocation and no
count change; in particular for a key that already has an entry the call
returns it with the table unchanged. -/
theorem c7_get_or_create_idempotent (hash : List Nat → Nat)
    (equals : List Nat → List Nat → Bool) (o1 o2 : Bool) (ht ht1 : HashTable)
    (k : List Nat) (e1 : Entry)
    (hlen : ht.buckets.length = ht.nbuckets) (hnb : 0 < ht.nbuckets)
    (hrefl : equals k k = true)
    (h1 : hash_get_or_create hash equals o1 ht k = (some e1, ht1)) :
    hash_get_or_create hash equals o2 ht1 k = (some e1, ht1) ∧
    (hash_get_or_create hash equals o2 ht1 k).2.size = ht1.size ∧
    entry_value_addr ht1 e1 = e1.addr + ht1.value_offset := by
  have hmain : hash_get_or_create hash equals o2 ht1 k = (some e1, ht1) := by
    rcases hfind : (ht.buckets.getD (bucket_index hash ht k) []).find?
        (fun e => equals e.key k) with _ | e0
    · rcases halloc : entry_alloc o1 ht with ⟨o, hta⟩
      cases o with
      | none =>
        rw [hash_get_or_create_alloc_fail hash equals o1 ht k hta hfind halloc] at h1
        simp at h1
      | some addr =>
        rw [hash_get_or_create_create hash equals o1 ht k addr hta hfind halloc] at h1
        injection h1 with ha hb
        injection ha with hae
        obtain ⟨hbk, hn, _, _, _, _, _⟩ :=
          entry_alloc_frame o1 ht (some addr) hta halloc
        subst hb
        subst hae
        have hidxlt : bucket_index hash ht k < hta.buckets.length := by
          rw [hbk, hlen]
          exact bucket_index_lt hash ht k hnb
        apply hash_get_or_create_found
        have hidx2 : bucket_index hash
            { hta with
              buckets := hta.buckets.set (bucket_index hash ht k)
                ({ addr := addr, key := k, value := List.replicate ht.value_size 0 } ::
                  ht.buckets.getD (bucket_index hash ht k) []),
              size := hta.size + 1 } k = bucket_index hash ht k := by
          simp [bucket_index, hn]
        rw [hidx2]
        show ((hta.buckets.set (bucket_index hash ht k)
          ({ addr := addr, key := k, value := List.replicate ht.value_size 0 } ::
            ht.buckets.getD (bucket_index hash ht k) [])).getD
              (bucket_index hash ht k) []).find? (fun e => equals e.key k) = _
        rw [getD_set_self hta.buckets (bucket_index hash ht k) _ [] hidxlt]
        rw [List.find?_cons_of_pos]
        exact hrefl
    · rw [hash_get_or_create_found hash equals o1 ht k e0 hfind] at h1
      injection h1 with ha hb
      injection ha with hae
      subst hb
      subst hae
      exact hash_get_or_create_found hash equals o2 ht k e0 hfind
  exact ⟨hmain, by rw [hmain], rfl⟩

/-- C7 witness: get_or_create of the absent key 3 on the populated
witness table, then again on the resulting table with the allocator
refusing — the second call must not allocate. -/
theorem c7_get_or_create_idempotent_witness :
    hash_get_or_create wHash wEquals false
        (hash_get_or_create wHash wEquals true witnessTableFull [3, 0, 0, 0]).2
        [3, 0, 0, 0] =
      (some ((hash_get_or_create wHash wEquals true witnessTableFull [3, 0, 0, 0]).1.getD w1),
       (hash_get_or_create wHash wEquals true witnessTableFull [3, 0, 0, 0]).2) ∧
    (hash_get_or_create wHash wEquals false
        (hash_get_or_create wHash wEquals true witnessTableFull [3, 0, 0, 0]).2
        [3, 0, 0, 0]).2.size =
      (hash_get_or_create wHash wEquals true witnessTableFull [3, 0, 0, 0]).2.size ∧
    entry_value_addr
        (hash_get_or_create wHash wEquals true witnessTableFull [3, 0, 0, 0]).2
        ((hash_get_or_create wHash wEquals true witnessTableFull [3, 0, 0, 0]).1.getD w1) =
      ((hash_get_or_create wHash wEquals true witnessTableFull [3, 0, 0, 0]).1.getD w1).addr +
      (hash_get_or_create wHash wEquals true witnessTableFull [3, 0, 0, 0]).2.value_offset :=
  c7_get_or_create_idempotent wHash wEquals true false witnessTableFull
    (hash_get_or_create wHash wEquals true witnessTableFull [3, 0, 0, 0]).2
    [3, 0, 0, 0]
    ((hash_get_or_create wHash wEquals true witnessTableFull [3, 0, 0, 0]).1.getD w1)
    (by decide) (by decide) (by decide) (by decide)

/-- C10: get_or_create failure behaviour.  For an absent key, if the
allocator cannot supply memory then hash_get_or_create returns the NULL
indicator with the table exactly in its pre-call state; on successful
creation the returned entry's value region is value_size zero bytes. -/
theorem c10_goc_failure_and_zero_init (hash : List Nat → Nat)
    (equals : List Nat → List Nat → Bool) (heapOk : Bool) (ht : HashTable)
    (k : List Nat)
    (habsent : (ht.buckets.getD (bucket_index hash ht k) []).find?
      (fun e => equals e.key k) = none) :
    ((entry_alloc heapOk ht).1 = none →
      hash_get_or_create hash equals heapOk ht k = (none, ht)) ∧
    (∀ (e : Entry) (ht2 : HashTable),
      hash_get_or_create hash equals heapOk ht k = (some e, ht2) →
      e.value = List.replicate ht.value_size 0) := by
  rcases halloc : entry_alloc heapOk ht with ⟨o, hta⟩
  cases o with
  | none =>
    have h := hash_get_or_create_alloc_fail hash equals heapOk ht k hta habsent halloc
    refine ⟨fun _ => h, ?_⟩
    intro e ht2 heq
    rw [h] at heq
    simp at heq
  | some addr =>
    have h := hash_get_or_create_create hash equals heapOk ht k addr hta habsent halloc
    constructor
    · intro hfail
      simp [halloc] at hfail
    · intro e ht2 heq
      rw [h] at heq
      injection heq with ha hb
      injection ha with hae
      rw [← hae]

/-- C10 witness: absent key 3, allocator refusing (failure branch) and
allocator succeeding (zero-initialized value branch), on the populated
witness table. -/
theorem c10_goc_failure_and_zero_init_witness :
    (((entry_alloc false witnessTableFull).1 = none →
      hash_get_or_create wHash wEquals false witnessTableFull [3, 0, 0, 0] =
        (none, witnessTableFull)) ∧
     (∀ (e : Entry) (ht2 : HashTable),
      hash_get_or_create wHash wEquals false witnessTableFull [3, 0, 0, 0] = (some e, ht2) →
      e.value = List.replicate witnessTableFull.value_size 0)) ∧
    (∀ (e : Entry) (ht2 : HashTable),
      hash_get_or_create wHash wEquals true witnessTableFull [3, 0, 0, 0] = (some e, ht2) →
      e.value = List.replicate witnessTableFull.value_size 0) :=
  ⟨c10_goc_failure_and_zero_init wHash wEquals false witnessTableFull [3, 0, 0, 0]
    (by decide),
   (c10_goc_failure_and_zero_init wHash wEquals true witnessTableFull [3, 0, 0, 0]
    (by decide)).2⟩

/-- C8: Count-reachability invariant.  For every table obtained from a
successful hash_init by any sequence of get / insert / get_or_create
calls (each with an arbitrary heap oracle), the live count ht->size
equals the number of entries reachable by walking all bucket chains, and
key_size, value_size and nbuckets still hold the values fixed at
creation. -/
theorem c8_count_reachability (ks vs nb ee : Nat) (bOk aOk : Bool) (base : Nat)
    (hash : List Nat → Nat) (equals : List Nat → List Nat → Bool)
    (ops : List Op) (ht0 : HashTable)
    (hinit : (hash_init ks vs nb ee bOk aOk base).table = some ht0) :
    (applyOps hash equals ht0 ops).key_size = ks ∧
    (applyOps hash equals ht0 ops).value_size = vs ∧
    (applyOps hash equals ht0 ops).nbuckets = nb ∧
    (applyOps hash equals ht0 ops).size = totalEntries (applyOps hash equals ht0 ops) := by
  obtain ⟨-, -, h3, h4, h5, h6⟩ := TableInv_applyOps ks vs nb hash equals ops ht0
    (hash_init_inv ks vs nb ee bOk aOk base ht0 hinit)
  exact ⟨h4, h5, h3, h6⟩

/-- C8 witness: a freshly constructed table (4 buckets, arena of 2) run
through an insert, a duplicate insert, a lookup, a get_or_create that
creates, and an insert under a refusing heap oracle. -/
theorem c8_count_reachability_witness :
    (applyOps wHash wEquals
      (((hash_init 4 8 4 2 true true 4096).table).getD zeroTable)
      [Op.insert true [1, 0, 0, 0] [1, 2, 3, 4, 5, 6, 7, 8],
       Op.insert true [1, 0, 0, 0] [9, 9, 9, 9, 9, 9, 9, 9],
       Op.get [1, 0, 0, 0],
       Op.getOrCreate true [2, 0, 0, 0],
       Op.insert false [7, 0, 0, 0] [0, 1, 0, 1, 0, 1, 0, 1]]).key_size = 4 ∧
    (applyOps wHash wEquals
      (((hash_init 4 8 4 2 true true 4096).table).getD zeroTable)
      [Op.insert true [1, 0, 0, 0] [1, 2, 3, 4, 5, 6, 7, 8],
       Op.insert true [1, 0, 0, 0] [9, 9, 9, 9, 9, 9, 9, 9],
       Op.get [1, 0, 0, 0],
       Op.getOrCreate true [2, 0, 0, 0],
       Op.insert false [7, 0, 0, 0] [0, 1, 0, 1, 0, 1, 0, 1]]).value_size = 8 ∧
    (applyOps wHash wEquals
      (((hash_init 4 8 4 2 true true 4096).table).getD zeroTable)
      [Op.insert true [1, 0, 0, 0] [1, 2, 3, 4, 5, 6, 7, 8],
       Op.insert true [1, 0, 0, 0] [9, 9, 9, 9, 9, 9, 9, 9],
       Op.get [1, 0, 0, 0],
       Op.getOrCreate true [2, 0, 0, 0],
       Op.insert false [7, 0, 0, 0] [0, 1, 0, 1, 0, 1, 0, 1]]).nbuckets = 4 ∧
    (applyOps wHash wEquals
      (((hash_init 4 8 4 2 true true 4096).table).getD zeroTable)
      [Op.insert true [1, 0, 0, 0] [1, 2, 3, 4, 5, 6, 7, 8],
       Op.insert true [1, 0, 0, 0] [9, 9, 9, 9, 9, 9, 9, 9],
       Op.get [1, 0, 0, 0],
       Op.getOrCreate true [2, 0, 0, 0],
       Op.insert false [7, 0, 0, 0] [0, 1, 0, 1, 0, 1, 0, 1]]).size =
      totalEntries (applyOps wHash wEquals
        (((hash_init 4 8 4 2 true true 4096).table).getD zeroTable)
        [Op.insert true [1, 0, 0, 0] [1, 2, 3, 4, 5, 6, 7, 8],
         Op.insert true [1, 0, 0, 0] [9, 9, 9, 9, 9, 9, 9, 9],
         Op.get [1, 0, 0, 0],
         Op.getOrCreate true [2, 0, 0, 0],
         Op.insert false [7, 0, 0, 0] [0, 1, 0, 1, 0, 1, 0, 1]]) :=
  c8_count_reachability 4 8 4 2 true true 4096 wHash wEquals
    [Op.insert true [1, 0, 0, 0] [1, 2, 3, 4, 5, 6, 7, 8],
     Op.insert true [1, 0, 0, 0] [9, 9, 9, 9, 9, 9, 9, 9],
     Op.get [1, 0, 0, 0],
     Op.getOrCreate true [2, 0, 0, 0],
     Op.insert false [7, 0, 0, 0] [0, 1, 0, 1, 0, 1, 0, 1]]
    (((hash_init 4 8 4 2 true true 4096).table).getD zeroTable) rfl
